import Mathlib

/-!
Verification of the capacitor-mwp-client core against its specification.

The development shallowly embeds three parts of the source:

* `KeyManager` (key lifecycle + persistence orchestration): the class from
  the source file defining `getOwnPublicKey`, `getSharedSecret`,
  `setPeerPublicKey`, `clear`, `generateKeyPair`, `loadKeysIfNeeded`,
  `loadKey`, `storeKey`.  The external cipher primitives are modelled as a
  free term algebra over an abstract `Key` type (symbolic model): key
  generation draws the next pair from a fresh-index counter,
  `deriveSharedSecret` is the free binary constructor.  The scoped
  key-value storage is modelled as an association list from storage keys
  to stored key values (`exportKeyToHexString` / `importKeyFromHexString`
  are external inverse bijections, so keys are stored directly).

* `postRequestToWallet` (round-trip coordinator, web-wallet branch): the
  promise with its three racing branches (matching `appUrlOpen` deep link,
  `browserClosed`, 5-minute timer) is embedded as a state machine whose
  state records which listeners are registered, whether the timer is armed,
  whether the embedded browser is open, and the resolution slot of the
  promise; asynchronous event delivery becomes a fold of a step function
  over a list of incoming events.

* `switchChain` of the wagmi connector (`createConnectorFromWallet`): the
  construction of the `wallet_addEthereumChain` payload in the
  chain-not-recognized (code 4902) branch, with JavaScript truthiness of
  the involved optional fields made explicit.
-/

/-! ## Symbolic model of the external cipher primitives -/

/-- Symbolic key values.  `gen i isPub` is one half of the `i`-th freshly
generated keypair (`isPub = true` for the public half), `ext n` is an
externally supplied key (for example a peer public key delivered by the
transport layer), and `derived priv pub` is the output of the external
`deriveSharedSecret(priv, pub)` primitive, modelled freely. -/
inductive Key where
  | gen (i : Nat) (isPub : Bool)
  | ext (n : Nat)
  | derived (priv pub : Key)
deriving DecidableEq, Repr

/-- The external `deriveSharedSecret` primitive, modelled as the free
constructor of the symbolic key algebra. -/
def deriveSharedSecret (priv pub : Key) : Key := Key.derived priv pub

/-- The external `generateKeyPair` primitive: the `i`-th generation returns
the pair (privateKey, publicKey) with fresh index `i`. -/
def generateKeyPairAt (i : Nat) : Key × Key :=
  (Key.gen i false, Key.gen i true)

/-- Whether a symbolic key is an output of `deriveSharedSecret`. -/
def Key.isDerived : Key → Bool
  | Key.derived _ _ => true
  | _ => false

/-! ## Scoped key-value storage

`ScopedPreferencesStorage` (backed by `@capacitor/preferences`) is modelled as
an association list from storage keys to stored key values; the hex
encoding/decoding applied by `storeKey`/`loadKey` is an external bijection
and is elided. -/

abbrev Storage : Type := List (String × Key)

/-- `storage.setItem(key, value)`: overwrite any existing entry. -/
def Storage.setItem (s : Storage) (k : String) (v : Key) : Storage :=
  (k, v) :: List.filter (fun p => p.1 ≠ k) s

/-- `storage.getItem(key)`: `null` when absent. -/
def Storage.getItem (s : Storage) (k : String) : Option Key :=
  (List.find? (fun p => p.1 = k) s).map Prod.snd

/-- `storage.removeItem(key)`. -/
def Storage.removeItem (s : Storage) (k : String) : Storage :=
  List.filter (fun p => p.1 ≠ k) s

/-! ## The KeyManager -/

/-- The storage keys of the three persisted slots (`OWN_PRIVATE_KEY`,
`OWN_PUBLIC_KEY`, `PEER_PUBLIC_KEY` in the source; the `keyType` field only
feeds the elided hex codec). -/
def OWN_PRIVATE_KEY : String := "ownPrivateKey"

def OWN_PUBLIC_KEY : String := "ownPublicKey"

def PEER_PUBLIC_KEY : String := "peerPublicKey"

/-- The state of one `KeyManager` instance: the four nullable in-memory
fields, the scoped storage it owns, and the fresh-index counter modelling
the randomness consumed by `generateKeyPair`. -/
structure KeyManager where
  ownPrivateKey : Option Key
  ownPublicKey : Option Key
  peerPublicKey : Option Key
  sharedSecret : Option Key
  storage : Storage
  nextGen : Nat

/-- A freshly constructed `KeyManager` over a given storage: all four
in-memory fields are initialised to `null`. -/
def KeyManager.mk0 (s : Storage) (n : Nat) : KeyManager :=
  ⟨none, none, none, none, s, n⟩

/-- `loadKey(item)`: read the stored string, `null` when absent, and
otherwise convert via the elided external bijection. -/
def KeyManager.loadKey (km : KeyManager) (storageKey : String) : Option Key :=
  km.storage.getItem storageKey

/-- `storeKey(item, key)`: export and persist. -/
def KeyManager.storeKey (km : KeyManager) (storageKey : String) (key : Key) :
    KeyManager :=
  { km with storage := km.storage.setItem storageKey key }

/-- Private `generateKeyPair()`: generate a fresh pair, set both in-memory
halves, persist both halves. -/
def KeyManager.generateKeyPair (km : KeyManager) : KeyManager :=
  let newKeyPair := generateKeyPairAt km.nextGen
  let km := { km with
    ownPrivateKey := some newKeyPair.1
    ownPublicKey := some newKeyPair.2
    nextGen := km.nextGen + 1 }
  let km := km.storeKey OWN_PRIVATE_KEY newKeyPair.1
  km.storeKey OWN_PUBLIC_KEY newKeyPair.2

/-- First if-block of `loadKeysIfNeeded()`: load the own private key from
storage when it is unset in memory. -/
def KeyManager.loadOwnPrivateIfNeeded (km : KeyManager) : KeyManager :=
  if km.ownPrivateKey = none then
    { km with ownPrivateKey := km.loadKey OWN_PRIVATE_KEY } else km

/-- Second if-block of `loadKeysIfNeeded()`: load the own public key from
storage when it is unset in memory. -/
def KeyManager.loadOwnPublicIfNeeded (km : KeyManager) : KeyManager :=
  if km.ownPublicKey = none then
    { km with ownPublicKey := km.loadKey OWN_PUBLIC_KEY } else km

/-- Third if-block of `loadKeysIfNeeded()`: when either own half is still
unset after the loads, generate (and persist) a brand-new keypair. -/
def KeyManager.generateIfIncomplete (km : KeyManager) : KeyManager :=
  if km.ownPrivateKey = none ∨ km.ownPublicKey = none then
    km.generateKeyPair else km

/-- Fourth if-block of `loadKeysIfNeeded()`: load the peer public key from
storage when it is unset in memory (absence is not an error). -/
def KeyManager.loadPeerIfNeeded (km : KeyManager) : KeyManager :=
  if km.peerPublicKey = none then
    { km with peerPublicKey := km.loadKey PEER_PUBLIC_KEY } else km

/-- Final if-block of `loadKeysIfNeeded()`: when the shared secret is
unset, derive and cache it if both the own private key and the peer public
key are available, and otherwise return (leaving the secret absent). -/
def KeyManager.deriveSecretIfNeeded (km : KeyManager) : KeyManager :=
  if km.sharedSecret = none then
    match km.ownPrivateKey, km.peerPublicKey with
    | some priv, some pub =>
        { km with sharedSecret := some (deriveSharedSecret priv pub) }
    | _, _ => km
  else km

/-- Private `loadKeysIfNeeded()`: the five if-blocks of the source in
order — load each unset own half independently; if either remains unset,
generate a brand-new pair; then load the peer key if unset; finally derive
and cache the shared secret when it is unset and both inputs are
available. -/
def KeyManager.loadKeysIfNeeded (km : KeyManager) : KeyManager :=
  ((((km.loadOwnPrivateIfNeeded).loadOwnPublicIfNeeded).generateIfIncomplete).loadPeerIfNeeded).deriveSecretIfNeeded

/-- `getOwnPublicKey()`: ensure keys are loaded, return the own public key
(the source uses a non-null assertion; the embedding returns the option and
its presence is proved). -/
def KeyManager.getOwnPublicKey (km : KeyManager) : KeyManager × Option Key :=
  let km := km.loadKeysIfNeeded
  (km, km.ownPublicKey)

/-- `getSharedSecret()`: ensure keys are loaded, return the cached shared
secret, `null` when not yet derived. -/
def KeyManager.getSharedSecret (km : KeyManager) : KeyManager × Option Key :=
  let km := km.loadKeysIfNeeded
  (km, km.sharedSecret)

/-- `setPeerPublicKey(key)`: invalidate the cached secret, set the peer
key, persist it, then eagerly re-derive via `loadKeysIfNeeded`. -/
def KeyManager.setPeerPublicKey (km : KeyManager) (key : Key) : KeyManager :=
  let km := { km with sharedSecret := none, peerPublicKey := some key }
  let km := km.storeKey PEER_PUBLIC_KEY key
  km.loadKeysIfNeeded

/-- `clear()`: null all four in-memory fields and remove the three
persisted slots (the `Promise.all` failure semantics is modelled separately
by `clearStorageWith`). -/
def KeyManager.clear (km : KeyManager) : KeyManager :=
  let km := { km with
    ownPrivateKey := none
    ownPublicKey := none
    peerPublicKey := none
    sharedSecret := none }
  { km with storage :=
      ((km.storage.removeItem OWN_PUBLIC_KEY).removeItem
        OWN_PRIVATE_KEY).removeItem PEER_PUBLIC_KEY }

/-- `clear()` under the `Promise.all` failure model: each of the three
`removeItem` promises is created up front, so every removal is attempted
independently; `fails` says which removals reject, and a rejected removal
leaves its entry in place while the other removals still take effect. -/
def clearStorageWith (fails : String → Bool) (s : Storage) : Storage :=
  let attempt := fun (t : Storage) (k : String) =>
    if fails k then t else t.removeItem k
  attempt (attempt (attempt s OWN_PUBLIC_KEY) OWN_PRIVATE_KEY) PEER_PUBLIC_KEY

/-- The storage keys whose removal `clear()` attempts, in source order. -/
def clearRemovalAttempts : List String :=
  [OWN_PUBLIC_KEY, OWN_PRIVATE_KEY, PEER_PUBLIC_KEY]

/-- Sequences of public `KeyManager` operations. -/
inductive KMOp where
  | getOwnPublicKey
  | getSharedSecret
  | setPeerPublicKey (k : Key)
  | clear
deriving DecidableEq, Repr

/-- Apply one public operation, keeping only the state (return values are
recovered by re-projecting the state). -/
def KMOp.apply : KMOp → KeyManager → KeyManager
  | KMOp.getOwnPublicKey, km => (km.getOwnPublicKey).1
  | KMOp.getSharedSecret, km => (km.getSharedSecret).1
  | KMOp.setPeerPublicKey k, km => km.setPeerPublicKey k
  | KMOp.clear, km => km.clear

/-- Run a sequence of public operations from a given state. -/
def runOps (ops : List KMOp) (km : KeyManager) : KeyManager :=
  List.foldl (fun s o => KMOp.apply o s) km ops

/-- Whether an operation is one of the two read accesses (no peer-key
mutation). -/
def KMOp.isRead : KMOp → Bool
  | KMOp.getOwnPublicKey => true
  | KMOp.getSharedSecret => true
  | _ => false

/-- Whether an operation supplies only non-derived key material (a
`setPeerPublicKey` whose argument is not an output of `deriveSharedSecret`;
reads and `clear` supply nothing). -/
def KMOp.peerOk : KMOp → Bool
  | KMOp.setPeerPublicKey k => !k.isDerived
  | _ => true

/-- A storage holds no `deriveSharedSecret` output among its values. -/
def Storage.noDerived (s : Storage) : Prop :=
  ∀ p ∈ s, (Prod.snd p).isDerived = false

instance (s : Storage) : Decidable s.noDerived :=
  inferInstanceAs (Decidable (∀ p ∈ s, (Prod.snd p).isDerived = false))

/-- All generation indices occurring in a key are below `n` (keys produced
before the counter reached `n`). -/
def Key.usesGenLt : Key → Nat → Bool
  | Key.gen i _, n => i < n
  | Key.ext _, _ => true
  | Key.derived a b, n => a.usesGenLt n && b.usesGenLt n

/-! Sanity examples exercising the model on concrete states. -/

example :
    ((KeyManager.mk0 [] 0).setPeerPublicKey (Key.ext 7)).sharedSecret =
      some (Key.derived (Key.gen 0 false) (Key.ext 7)) := by
  decide

example :
    ((KeyManager.mk0 [(OWN_PRIVATE_KEY, Key.gen 3 false),
        (OWN_PUBLIC_KEY, Key.gen 3 true)] 4).getOwnPublicKey).2 =
      some (Key.gen 3 true) := by
  decide

/-! ## Round-Trip Coordinator: `postRequestToWallet`, web-wallet branch

The embedding is generic in the decoded-response type `R` and in the
external collaborators `appCustomScheme` (the expected return-scheme
prefix) and `decodeResponseURLParams` (which returns `none` exactly when
decoding the return URL throws). -/

/-- The error taxonomy of the specification; the round-trip code only ever
constructs `userRejected` (`standardErrors.provider.userRejectedRequest()`),
which the claims quantify over this type to express. -/
inductive RTError where
  | userRejected
  | malformedReturnPayload
  | timeout
  | launchFailure
deriving DecidableEq, Repr

/-- Resolution of the round-trip promise. -/
inductive Outcome (R : Type) where
  | completed (response : R)
  | rejected (e : RTError)
deriving DecidableEq, Repr

/-- State of one in-flight round-trip attempt: which of the two listeners
are registered, whether the timer is armed, whether the embedded browser
view is open, and the promise resolution slot (`none` while pending). -/
structure Attempt (R : Type) where
  listenerActive : Bool
  browserListenerActive : Bool
  timerActive : Bool
  browserOpen : Bool
  resolution : Option (Outcome R)
deriving DecidableEq, Repr

/-- The asynchronous occurrences a pending attempt can observe: a deep-link
`appUrlOpen` event carrying a URL, the `browserClosed` event, and the
armed timer firing. -/
inductive RTEvent where
  | appUrlOpen (url : String)
  | browserClosed
  | timerFired
deriving DecidableEq, Repr

/-- JavaScript `url.startsWith(appCustomScheme)` on the event URL: the
scheme string is a character-prefix of the URL. -/
def urlStartsWith (url appCustomScheme : String) : Bool :=
  appCustomScheme.data.isPrefixOf url.data

/-- The cleanup block shared by every branch: `if (listener)
listener.remove(); if (browserClosedListener) browserClosedListener.remove();
if (timeoutId) clearTimeout(timeoutId)` — removing an absent registration is
a no-op. -/
def Attempt.teardown (st : Attempt R) : Attempt R :=
  { st with listenerActive := false, browserListenerActive := false,
            timerActive := false }

/-- Settle the promise: the first `resolve`/`reject` wins, later ones are
no-ops (JavaScript promise semantics). -/
def Attempt.settle (st : Attempt R) (o : Outcome R) : Attempt R :=
  match st.resolution with
  | none => { st with resolution := some o }
  | some _ => st

/-- One event delivery against the attempt state, mirroring the three
handlers of the source: the `appUrlOpen` listener (which ignores URLs not
starting with `appCustomScheme`, and otherwise tears down, closes the
browser, and resolves with the decoded response or rejects when decoding
throws), the `browserClosed` listener (tear down and reject), and the
timeout callback (tear down, close the browser, reject). -/
def step (appCustomScheme : String) (decodeResponseURLParams : String → Option R)
    (st : Attempt R) (e : RTEvent) : Attempt R :=
  match e with
  | RTEvent.appUrlOpen url =>
    if st.listenerActive then
      if urlStartsWith url appCustomScheme then
        let st := st.teardown
        let st := { st with browserOpen := false }
        match decodeResponseURLParams url with
        | some response => st.settle (Outcome.completed response)
        | none => st.settle (Outcome.rejected RTError.userRejected)
      else st
    else st
  | RTEvent.browserClosed =>
    let st := { st with browserOpen := false }
    if st.browserListenerActive then
      (st.teardown).settle (Outcome.rejected RTError.userRejected)
    else st
  | RTEvent.timerFired =>
    if st.timerActive then
      let st := st.teardown
      let st := { st with browserOpen := false }
      st.settle (Outcome.rejected RTError.userRejected)
    else st

/-- The timeout passed to `setTimeout`, in milliseconds: `5 * 60 * 1000`,
a constant of the source — `postRequestToWallet` takes no duration
parameter. -/
def timeoutMs : Nat := 5 * 60 * 1000

/-- The state right after `postRequestToWallet` starts the flow: the timer
is armed and both listeners registered before `InAppBrowser.openInWebView`
is awaited; when that instruction fails, the `catch` block tears down and
rejects, otherwise the browser view is open and the attempt pending. -/
def launch (R : Type) (launchFails : Bool) : Attempt R :=
  let st : Attempt R := ⟨true, true, true, false, none⟩
  if launchFails then
    (st.teardown).settle (Outcome.rejected RTError.userRejected)
  else
    { st with browserOpen := true }

/-- Deliver a list of events to a launched attempt, in order. -/
def runEvents (appCustomScheme : String)
    (decodeResponseURLParams : String → Option R) (launchFails : Bool)
    (events : List RTEvent) : Attempt R :=
  List.foldl (step appCustomScheme decodeResponseURLParams)
    (launch R launchFails) events

/-- Whether an event makes a pending fully-armed attempt resolve: a
deep link matching the expected scheme prefix, a browser dismissal, or the
timer firing. -/
def isTrigger (appCustomScheme : String) : RTEvent → Bool
  | RTEvent.appUrlOpen url => urlStartsWith url appCustomScheme
  | RTEvent.browserClosed => true
  | RTEvent.timerFired => true

/-! ## Wagmi connector: the `switchChain` add-chain payload

Embeds the `wallet_addEthereumChain` payload construction of the code-4902
branch of `switchChain` in `createConnectorFromWallet`, with the JavaScript
truthiness tests made explicit. -/

/-- Caller-supplied `addEthereumChainParameter` (each field optional). -/
structure AddChainParams where
  blockExplorerUrls : Option (List String)
  rpcUrls : Option (List String)
  chainName : Option String
  iconUrls : Option (List String)
  nativeCurrencySymbol : Option String
deriving DecidableEq, Repr

/-- The configured network entry found in `config.chains`:
`blockExplorerDefaultUrl` models `chain.blockExplorers?.default.url` and
`rpcDefaultHttp` models `chain.rpcUrls.default?.http`. -/
structure WagmiChain where
  id : Nat
  name : String
  blockExplorerDefaultUrl : Option String
  rpcDefaultHttp : Option (List String)
  nativeCurrencySymbol : String
deriving DecidableEq, Repr

/-- `blockExplorerUrls` of the add-chain payload: a defined caller array is
truthy (even when empty) and wins; otherwise `chain.blockExplorers?.default.url`
yields a one-element array when that string is truthy (defined and
non-empty), and the empty array otherwise. -/
def addChainBlockExplorerUrls (p : Option AddChainParams)
    (chain : WagmiChain) : List String :=
  match p.bind AddChainParams.blockExplorerUrls with
  | some urls => urls
  | none =>
    match chain.blockExplorerDefaultUrl with
    | some url => if url = "" then [] else [url]
    | none => []

/-- `rpcUrls` of the add-chain payload: the caller array wins only when
`addEthereumChainParameter?.rpcUrls?.length` is truthy (defined and
non-empty); otherwise the payload is the one-element array
`[chain.rpcUrls.default?.http[0] ?? ""]`. -/
def addChainRpcUrls (p : Option AddChainParams) (chain : WagmiChain) :
    List String :=
  match p.bind AddChainParams.rpcUrls with
  | some (u :: us) => u :: us
  | _ => [(chain.rpcDefaultHttp.bind List.head?).getD ""]

/-! ## Storage lemmas -/

lemma Storage.getItem_setItem_self (s : Storage) (k : String) (v : Key) :
    (s.setItem k v).getItem k = some v := by
  simp [Storage.setItem, Storage.getItem, List.find?_cons_of_pos]

lemma Storage.find?_filter_ne (s : Storage) (k k2 : String) (h : k2 ≠ k) :
    List.find? (fun p => p.1 = k2) (List.filter (fun p => p.1 ≠ k) s) =
      List.find? (fun p => p.1 = k2) s := by
  induction s with
  | nil => rfl
  | cons a t ih =>
    by_cases ha : a.1 = k
    · have h2 : ¬(a.1 = k2) := fun hk => h (hk.symm.trans ha)
      rw [List.filter_cons_of_neg (by simpa using ha), ih,
        List.find?_cons_of_neg _ (by simpa using h2)]
    · by_cases ha2 : a.1 = k2
      · rw [List.filter_cons_of_pos (by simpa using ha),
          List.find?_cons_of_pos _ (by simpa using ha2),
          List.find?_cons_of_pos _ (by simpa using ha2)]
      · rw [List.filter_cons_of_pos (by simpa using ha),
          List.find?_cons_of_neg _ (by simpa using ha2),
          List.find?_cons_of_neg _ (by simpa using ha2), ih]

lemma Storage.getItem_setItem_ne (s : Storage) (k k2 : String) (v : Key)
    (h : k2 ≠ k) : (s.setItem k v).getItem k2 = s.getItem k2 := by
  unfold Storage.setItem Storage.getItem
  rw [List.find?_cons_of_neg _ (by simpa using Ne.symm h),
    Storage.find?_filter_ne s k k2 h]

lemma Storage.getItem_removeItem_self (s : Storage) (k : String) :
    (s.removeItem k).getItem k = none := by
  have hfind : List.find? (fun p => p.1 = k)
      (List.filter (fun p => p.1 ≠ k) s) = none := by
    rw [List.find?_eq_none]
    intro x hx
    have hmem := (List.mem_filter.mp hx).2
    simp only [decide_not, Bool.not_eq_eq_eq_not, Bool.not_true,
      decide_eq_false_iff_not] at hmem ⊢
    simpa using hmem
  simp [Storage.removeItem, Storage.getItem, hfind]

lemma Storage.getItem_removeItem_ne (s : Storage) (k k2 : String)
    (h : k2 ≠ k) : (s.removeItem k).getItem k2 = s.getItem k2 := by
  unfold Storage.removeItem Storage.getItem
  rw [Storage.find?_filter_ne s k k2 h]

/-! ## Stage lemmas for `loadKeysIfNeeded` -/

lemma KeyManager.generateKeyPair_eq (km : KeyManager) :
    km.generateKeyPair =
      ⟨some (Key.gen km.nextGen false), some (Key.gen km.nextGen true),
        km.peerPublicKey, km.sharedSecret,
        (km.storage.setItem OWN_PRIVATE_KEY
          (Key.gen km.nextGen false)).setItem OWN_PUBLIC_KEY
          (Key.gen km.nextGen true),
        km.nextGen + 1⟩ := rfl

@[simp] lemma KeyManager.s1_ownPublicKey (km : KeyManager) :
    (km.loadOwnPrivateIfNeeded).ownPublicKey = km.ownPublicKey := by
  unfold KeyManager.loadOwnPrivateIfNeeded; split <;> rfl

@[simp] lemma KeyManager.s1_peerPublicKey (km : KeyManager) :
    (km.loadOwnPrivateIfNeeded).peerPublicKey = km.peerPublicKey := by
  unfold KeyManager.loadOwnPrivateIfNeeded; split <;> rfl

@[simp] lemma KeyManager.s1_sharedSecret (km : KeyManager) :
    (km.loadOwnPrivateIfNeeded).sharedSecret = km.sharedSecret := by
  unfold KeyManager.loadOwnPrivateIfNeeded; split <;> rfl

@[simp] lemma KeyManager.s1_storage (km : KeyManager) :
    (km.loadOwnPrivateIfNeeded).storage = km.storage := by
  unfold KeyManager.loadOwnPrivateIfNeeded; split <;> rfl

@[simp] lemma KeyManager.s1_nextGen (km : KeyManager) :
    (km.loadOwnPrivateIfNeeded).nextGen = km.nextGen := by
  unfold KeyManager.loadOwnPrivateIfNeeded; split <;> rfl

lemma KeyManager.s1_ownPrivateKey (km : KeyManager) :
    (km.loadOwnPrivateIfNeeded).ownPrivateKey =
      if km.ownPrivateKey = none then km.storage.getItem OWN_PRIVATE_KEY
      else km.ownPrivateKey := by
  unfold KeyManager.loadOwnPrivateIfNeeded; split <;> simp_all [KeyManager.loadKey]

@[simp] lemma KeyManager.s2_ownPrivateKey (km : KeyManager) :
    (km.loadOwnPublicIfNeeded).ownPrivateKey = km.ownPrivateKey := by
  unfold KeyManager.loadOwnPublicIfNeeded; split <;> rfl

@[simp] lemma KeyManager.s2_peerPublicKey (km : KeyManager) :
    (km.loadOwnPublicIfNeeded).peerPublicKey = km.peerPublicKey := by
  unfold KeyManager.loadOwnPublicIfNeeded; split <;> rfl

@[simp] lemma KeyManager.s2_sharedSecret (km : KeyManager) :
    (km.loadOwnPublicIfNeeded).sharedSecret = km.sharedSecret := by
  unfold KeyManager.loadOwnPublicIfNeeded; split <;> rfl

@[simp] lemma KeyManager.s2_storage (km : KeyManager) :
    (km.loadOwnPublicIfNeeded).storage = km.storage := by
  unfold KeyManager.loadOwnPublicIfNeeded; split <;> rfl

@[simp] lemma KeyManager.s2_nextGen (km : KeyManager) :
    (km.loadOwnPublicIfNeeded).nextGen = km.nextGen := by
  unfold KeyManager.loadOwnPublicIfNeeded; split <;> rfl

lemma KeyManager.s2_ownPublicKey (km : KeyManager) :
    (km.loadOwnPublicIfNeeded).ownPublicKey =
      if km.ownPublicKey = none then km.storage.getItem OWN_PUBLIC_KEY
      else km.ownPublicKey := by
  unfold KeyManager.loadOwnPublicIfNeeded; split <;> simp_all [KeyManager.loadKey]

@[simp] lemma KeyManager.s3_peerPublicKey (km : KeyManager) :
    (km.generateIfIncomplete).peerPublicKey = km.peerPublicKey := by
  unfold KeyManager.generateIfIncomplete; split <;> rfl

@[simp] lemma KeyManager.s3_sharedSecret (km : KeyManager) :
    (km.generateIfIncomplete).sharedSecret = km.sharedSecret := by
  unfold KeyManager.generateIfIncomplete; split <;> rfl

lemma KeyManager.s3_own_isSome (km : KeyManager) :
    (km.generateIfIncomplete).ownPrivateKey.isSome ∧
      (km.generateIfIncomplete).ownPublicKey.isSome := by
  unfold KeyManager.generateIfIncomplete
  split
  · exact ⟨rfl, rfl⟩
  · rename_i h
    push_neg at h
    exact ⟨Option.isSome_iff_ne_none.mpr h.1, Option.isSome_iff_ne_none.mpr h.2⟩

lemma KeyManager.s3_storage_getItem_ne (km : KeyManager) (k : String)
    (h1 : k ≠ OWN_PRIVATE_KEY) (h2 : k ≠ OWN_PUBLIC_KEY) :
    (km.generateIfIncomplete).storage.getItem k = km.storage.getItem k := by
  unfold KeyManager.generateIfIncomplete
  split
  · rw [KeyManager.generateKeyPair_eq]
    show ((km.storage.setItem OWN_PRIVATE_KEY _).setItem OWN_PUBLIC_KEY
      _).getItem k = _
    rw [Storage.getItem_setItem_ne _ _ _ _ h2, Storage.getItem_setItem_ne _ _ _ _ h1]
  · rfl

@[simp] lemma KeyManager.s4_ownPrivateKey (km : KeyManager) :
    (km.loadPeerIfNeeded).ownPrivateKey = km.ownPrivateKey := by
  unfold KeyManager.loadPeerIfNeeded; split <;> rfl

@[simp] lemma KeyManager.s4_ownPublicKey (km : KeyManager) :
    (km.loadPeerIfNeeded).ownPublicKey = km.ownPublicKey := by
  unfold KeyManager.loadPeerIfNeeded; split <;> rfl

@[simp] lemma KeyManager.s4_sharedSecret (km : KeyManager) :
    (km.loadPeerIfNeeded).sharedSecret = km.sharedSecret := by
  unfold KeyManager.loadPeerIfNeeded; split <;> rfl

@[simp] lemma KeyManager.s4_storage (km : KeyManager) :
    (km.loadPeerIfNeeded).storage = km.storage := by
  unfold KeyManager.loadPeerIfNeeded; split <;> rfl

@[simp] lemma KeyManager.s4_nextGen (km : KeyManager) :
    (km.loadPeerIfNeeded).nextGen = km.nextGen := by
  unfold KeyManager.loadPeerIfNeeded; split <;> rfl

lemma KeyManager.s4_peerPublicKey (km : KeyManager) :
    (km.loadPeerIfNeeded).peerPublicKey =
      if km.peerPublicKey = none then km.storage.getItem PEER_PUBLIC_KEY
      else km.peerPublicKey := by
  unfold KeyManager.loadPeerIfNeeded; split <;> simp_all [KeyManager.loadKey]

@[simp] lemma KeyManager.s5_ownPrivateKey (km : KeyManager) :
    (km.deriveSecretIfNeeded).ownPrivateKey = km.ownPrivateKey := by
  unfold KeyManager.deriveSecretIfNeeded
  split
  · split <;> rfl
  · rfl

@[simp] lemma KeyManager.s5_ownPublicKey (km : KeyManager) :
    (km.deriveSecretIfNeeded).ownPublicKey = km.ownPublicKey := by
  unfold KeyManager.deriveSecretIfNeeded
  split
  · split <;> rfl
  · rfl

@[simp] lemma KeyManager.s5_peerPublicKey (km : KeyManager) :
    (km.deriveSecretIfNeeded).peerPublicKey = km.peerPublicKey := by
  unfold KeyManager.deriveSecretIfNeeded
  split
  · split <;> rfl
  · rfl

@[simp] lemma KeyManager.s5_storage (km : KeyManager) :
    (km.deriveSecretIfNeeded).storage = km.storage := by
  unfold KeyManager.deriveSecretIfNeeded
  split
  · split <;> rfl
  · rfl

@[simp] lemma KeyManager.s5_nextGen (km : KeyManager) :
    (km.deriveSecretIfNeeded).nextGen = km.nextGen := by
  unfold KeyManager.deriveSecretIfNeeded
  split
  · split <;> rfl
  · rfl

lemma KeyManager.s5_secret_of_some_some (km : KeyManager) (p k : Key)
    (hs : km.sharedSecret = none) (hp : km.ownPrivateKey = some p)
    (hk : km.peerPublicKey = some k) :
    (km.deriveSecretIfNeeded).sharedSecret = some (deriveSharedSecret p k) := by
  unfold KeyManager.deriveSecretIfNeeded
  rw [if_pos hs]
  rw [hp, hk]

lemma KeyManager.s5_secret_of_secret_some (km : KeyManager) (s : Key)
    (hs : km.sharedSecret = some s) :
    (km.deriveSecretIfNeeded).sharedSecret = some s := by
  unfold KeyManager.deriveSecretIfNeeded
  rw [if_neg (by simp [hs])]
  exact hs

lemma KeyManager.s5_secret_of_no_peer (km : KeyManager)
    (hk : km.peerPublicKey = none) :
    (km.deriveSecretIfNeeded).sharedSecret = km.sharedSecret := by
  unfold KeyManager.deriveSecretIfNeeded
  split
  · rename_i hs
    rcases h : km.ownPrivateKey with _ | p <;> simp [h, hk, hs]
  · rfl

/-! ## Composite lemmas for `loadKeysIfNeeded` -/

lemma KeyManager.s1_id (km : KeyManager) (h : km.ownPrivateKey ≠ none) :
    km.loadOwnPrivateIfNeeded = km := by
  unfold KeyManager.loadOwnPrivateIfNeeded; rw [if_neg h]

lemma KeyManager.s2_id (km : KeyManager) (h : km.ownPublicKey ≠ none) :
    km.loadOwnPublicIfNeeded = km := by
  unfold KeyManager.loadOwnPublicIfNeeded; rw [if_neg h]

lemma KeyManager.s3_id (km : KeyManager) (h1 : km.ownPrivateKey ≠ none)
    (h2 : km.ownPublicKey ≠ none) : km.generateIfIncomplete = km := by
  unfold KeyManager.generateIfIncomplete
  rw [if_neg (by push_neg; exact ⟨h1, h2⟩)]

lemma KeyManager.s4_id (km : KeyManager) (h : km.peerPublicKey ≠ none) :
    km.loadPeerIfNeeded = km := by
  unfold KeyManager.loadPeerIfNeeded; rw [if_neg h]

lemma KeyManager.s5_id (km : KeyManager) (h : km.sharedSecret ≠ none) :
    km.deriveSecretIfNeeded = km := by
  unfold KeyManager.deriveSecretIfNeeded; rw [if_neg h]

lemma KeyManager.load_own_isSome (km : KeyManager) :
    (km.loadKeysIfNeeded).ownPrivateKey.isSome ∧
      (km.loadKeysIfNeeded).ownPublicKey.isSome := by
  unfold KeyManager.loadKeysIfNeeded
  have h := ((km.loadOwnPrivateIfNeeded).loadOwnPublicIfNeeded).s3_own_isSome
  simpa using h

lemma KeyManager.load_peer_of_some (km : KeyManager) (k : Key)
    (h : km.peerPublicKey = some k) :
    (km.loadKeysIfNeeded).peerPublicKey = some k := by
  unfold KeyManager.loadKeysIfNeeded
  rw [KeyManager.s4_id _ (by simp [h])]
  simp [h]

lemma KeyManager.load_secret_of_peer (km : KeyManager) (k : Key)
    (hp : km.peerPublicKey = some k) (hs : km.sharedSecret = none) :
    ∃ p, (km.loadKeysIfNeeded).ownPrivateKey = some p ∧
      (km.loadKeysIfNeeded).sharedSecret = some (deriveSharedSecret p k) := by
  obtain ⟨p, hp3⟩ : ∃ p,
      (((km.loadOwnPrivateIfNeeded).loadOwnPublicIfNeeded).generateIfIncomplete).ownPrivateKey
        = some p :=
    Option.isSome_iff_exists.mp
      ((km.loadOwnPrivateIfNeeded).loadOwnPublicIfNeeded).s3_own_isSome.1
  have h3p :
      (((km.loadOwnPrivateIfNeeded).loadOwnPublicIfNeeded).generateIfIncomplete).peerPublicKey
        = some k := by simp [hp]
  have h3s :
      (((km.loadOwnPrivateIfNeeded).loadOwnPublicIfNeeded).generateIfIncomplete).sharedSecret
        = none := by simp [hs]
  unfold KeyManager.loadKeysIfNeeded
  rw [KeyManager.s4_id _ (by rw [h3p]; simp)]
  exact ⟨p, by simp [hp3],
    KeyManager.s5_secret_of_some_some _ p k h3s hp3 h3p⟩

lemma KeyManager.load_id_of_full (km : KeyManager) (p q k s : Key)
    (h1 : km.ownPrivateKey = some p) (h2 : km.ownPublicKey = some q)
    (h3 : km.peerPublicKey = some k) (h4 : km.sharedSecret = some s) :
    km.loadKeysIfNeeded = km := by
  unfold KeyManager.loadKeysIfNeeded
  rw [KeyManager.s1_id _ (by rw [h1]; simp),
    KeyManager.s2_id _ (by rw [h2]; simp),
    KeyManager.s3_id _ (by rw [h1]; simp) (by rw [h2]; simp),
    KeyManager.s4_id _ (by rw [h3]; simp),
    KeyManager.s5_id _ (by rw [h4]; simp)]

/-- C1: every `setPeerPublicKey(k)` call invalidates any cached secret,
stores `k`, and eagerly re-derives, so the resulting state carries
`deriveSharedSecret(own private key, k)` and an immediately following
`getSharedSecret()` returns exactly that secret; by injectivity of the
derivation it is a function of the latest peer key only, never of any
earlier one. -/
theorem C1_set_peer_rederives_latest_secret (km : KeyManager) (k : Key) :
    ∃ p, (km.setPeerPublicKey k).ownPrivateKey = some p ∧
      (km.setPeerPublicKey k).peerPublicKey = some k ∧
      (km.setPeerPublicKey k).sharedSecret = some (deriveSharedSecret p k) ∧
      ((km.setPeerPublicKey k).getSharedSecret).2 =
        some (deriveSharedSecret p k) ∧
      ∀ q kOld, deriveSharedSecret q kOld = deriveSharedSecret p k →
        kOld = k := by
  have hpre :
      (({ km with sharedSecret := none, peerPublicKey := some k
        : KeyManager }).storeKey PEER_PUBLIC_KEY k).peerPublicKey = some k := rfl
  have hpre2 :
      (({ km with sharedSecret := none, peerPublicKey := some k
        : KeyManager }).storeKey PEER_PUBLIC_KEY k).sharedSecret = none := rfl
  obtain ⟨p, hp, hsec⟩ := KeyManager.load_secret_of_peer _ k hpre hpre2
  have hpeer := KeyManager.load_peer_of_some _ k hpre
  have hset : km.setPeerPublicKey k =
      (({ km with sharedSecret := none, peerPublicKey := some k
        : KeyManager }).storeKey PEER_PUBLIC_KEY k).loadKeysIfNeeded := rfl
  obtain ⟨q, hq⟩ :=
    Option.isSome_iff_exists.mp
      (KeyManager.load_own_isSome
        (({ km with sharedSecret := none, peerPublicKey := some k
          : KeyManager }).storeKey PEER_PUBLIC_KEY k)).2
  refine ⟨p, ?_, ?_, ?_, ?_, ?_⟩
  · rw [hset]; exact hp
  · rw [hset]; exact hpeer
  · rw [hset]; exact hsec
  · show ((km.setPeerPublicKey k).loadKeysIfNeeded,
      ((km.setPeerPublicKey k).loadKeysIfNeeded).sharedSecret).2 =
        some (deriveSharedSecret p k)
    rw [hset] at *
    rw [KeyManager.load_id_of_full _ p q k (deriveSharedSecret p k) hp hq
      hpeer hsec]
    exact hsec
  · intro q2 kOld h
    exact (Key.derived.injEq _ _ _ _ ▸ h).2

/-! ## Regeneration and clearing lemmas -/

lemma Key.ne_gen_of_usesGenLt (w : Key) (n : Nat) (b : Bool)
    (h : w.usesGenLt n = true) : w ≠ Key.gen n b := by
  cases w with
  | gen i b2 =>
    intro hc
    cases hc
    simp only [Key.usesGenLt, decide_eq_true_eq] at h
    omega
  | ext m => intro hc; cases hc
  | derived a b2 => intro hc; cases hc

lemma KeyManager.load_mk0_generates (s : Storage) (n : Nat)
    (h : s.getItem OWN_PRIVATE_KEY = none ∨ s.getItem OWN_PUBLIC_KEY = none) :
    ((KeyManager.mk0 s n).loadKeysIfNeeded).ownPrivateKey =
        some (Key.gen n false) ∧
      ((KeyManager.mk0 s n).loadKeysIfNeeded).ownPublicKey =
        some (Key.gen n true) ∧
      ((KeyManager.mk0 s n).loadKeysIfNeeded).storage.getItem
        OWN_PRIVATE_KEY = some (Key.gen n false) ∧
      ((KeyManager.mk0 s n).loadKeysIfNeeded).storage.getItem
        OWN_PUBLIC_KEY = some (Key.gen n true) := by
  have e1 : (KeyManager.mk0 s n).loadOwnPrivateIfNeeded =
      ⟨s.getItem OWN_PRIVATE_KEY, none, none, none, s, n⟩ := by
    unfold KeyManager.loadOwnPrivateIfNeeded
    rw [if_pos (show (KeyManager.mk0 s n).ownPrivateKey = none from rfl)]
    rfl
  have e2 : ((KeyManager.mk0 s n).loadOwnPrivateIfNeeded).loadOwnPublicIfNeeded =
      ⟨s.getItem OWN_PRIVATE_KEY, s.getItem OWN_PUBLIC_KEY, none, none, s, n⟩ := by
    rw [e1]
    unfold KeyManager.loadOwnPublicIfNeeded
    rw [if_pos (show (⟨s.getItem OWN_PRIVATE_KEY, none, none, none, s, n⟩
      : KeyManager).ownPublicKey = none from rfl)]
    rfl
  have e3 :
      (((KeyManager.mk0 s n).loadOwnPrivateIfNeeded).loadOwnPublicIfNeeded).generateIfIncomplete =
      ⟨some (Key.gen n false), some (Key.gen n true), none, none,
        (s.setItem OWN_PRIVATE_KEY (Key.gen n false)).setItem OWN_PUBLIC_KEY
          (Key.gen n true), n + 1⟩ := by
    rw [e2]
    unfold KeyManager.generateIfIncomplete
    rw [if_pos (by simpa using h)]
    rw [KeyManager.generateKeyPair_eq]
  constructor
  · unfold KeyManager.loadKeysIfNeeded
    rw [KeyManager.s5_ownPrivateKey, KeyManager.s4_ownPrivateKey, e3]
  constructor
  · unfold KeyManager.loadKeysIfNeeded
    rw [KeyManager.s5_ownPublicKey, KeyManager.s4_ownPublicKey, e3]
  constructor
  · unfold KeyManager.loadKeysIfNeeded
    rw [KeyManager.s5_storage, KeyManager.s4_storage, e3]
    show ((s.setItem OWN_PRIVATE_KEY (Key.gen n false)).setItem OWN_PUBLIC_KEY
      (Key.gen n true)).getItem OWN_PRIVATE_KEY = _
    rw [Storage.getItem_setItem_ne _ _ _ _ (by decide),
      Storage.getItem_setItem_self]
  · unfold KeyManager.loadKeysIfNeeded
    rw [KeyManager.s5_storage, KeyManager.s4_storage, e3]
    show ((s.setItem OWN_PRIVATE_KEY (Key.gen n false)).setItem OWN_PUBLIC_KEY
      (Key.gen n true)).getItem OWN_PUBLIC_KEY = _
    rw [Storage.getItem_setItem_self]

/-- C2: when exactly one half of the own keypair is loadable from storage
(the other absent) and nothing is in memory yet, both key-loading accesses
(`getOwnPublicKey` and `getSharedSecret`) generate a brand-new keypair,
persist both halves, and the returned public key is the fresh one — never
an identity built from the orphaned stored half `w`. -/
theorem C2_partial_keypair_regenerated (s : Storage) (n : Nat) (w : Key)
    (h : (s.getItem OWN_PRIVATE_KEY = some w ∧
            s.getItem OWN_PUBLIC_KEY = none) ∨
         (s.getItem OWN_PRIVATE_KEY = none ∧
            s.getItem OWN_PUBLIC_KEY = some w)) :
    ((KeyManager.mk0 s n).getOwnPublicKey).2 = some (Key.gen n true) ∧
      ((KeyManager.mk0 s n).getOwnPublicKey).1.ownPrivateKey =
        some (Key.gen n false) ∧
      ((KeyManager.mk0 s n).getOwnPublicKey).1.storage.getItem
        OWN_PRIVATE_KEY = some (Key.gen n false) ∧
      ((KeyManager.mk0 s n).getOwnPublicKey).1.storage.getItem
        OWN_PUBLIC_KEY = some (Key.gen n true) ∧
      ((KeyManager.mk0 s n).getSharedSecret).1.ownPrivateKey =
        some (Key.gen n false) ∧
      ((KeyManager.mk0 s n).getSharedSecret).1.ownPublicKey =
        some (Key.gen n true) ∧
      (w.usesGenLt n = true →
        ((KeyManager.mk0 s n).getOwnPublicKey).2 ≠ some w) := by
  have hd : s.getItem OWN_PRIVATE_KEY = none ∨
      s.getItem OWN_PUBLIC_KEY = none := by
    rcases h with ⟨_, h2⟩ | ⟨h1, _⟩
    · exact Or.inr h2
    · exact Or.inl h1
  obtain ⟨e1, e2, e3, e4⟩ := KeyManager.load_mk0_generates s n hd
  refine ⟨e2, e1, e3, e4, e1, e2, ?_⟩
  intro hw hc
  have hc2 : ((KeyManager.mk0 s n).loadKeysIfNeeded).ownPublicKey = some w := hc
  rw [e2] at hc2
  exact Key.ne_gen_of_usesGenLt w n true hw (Option.some.inj hc2).symm

/-! ## Post-clear lemmas (C8) -/

/-- Invariant of a cleared channel with no peer set again: no peer key in
memory, no cached secret, and no peer key in storage. -/
def KeyManager.noPeer (km : KeyManager) : Prop :=
  km.peerPublicKey = none ∧ km.sharedSecret = none ∧
    km.storage.getItem PEER_PUBLIC_KEY = none

lemma KeyManager.clear_noPeer (km : KeyManager) : km.clear.noPeer := by
  refine ⟨rfl, rfl, ?_⟩
  show (((km.storage.removeItem OWN_PUBLIC_KEY).removeItem
    OWN_PRIVATE_KEY).removeItem PEER_PUBLIC_KEY).getItem PEER_PUBLIC_KEY = none
  rw [Storage.getItem_removeItem_self]

lemma KeyManager.clear_getItem_own (km : KeyManager) :
    km.clear.storage.getItem OWN_PRIVATE_KEY = none ∧
      km.clear.storage.getItem OWN_PUBLIC_KEY = none := by
  constructor
  · show (((km.storage.removeItem OWN_PUBLIC_KEY).removeItem
      OWN_PRIVATE_KEY).removeItem PEER_PUBLIC_KEY).getItem OWN_PRIVATE_KEY = none
    rw [Storage.getItem_removeItem_ne _ _ _ (by decide),
      Storage.getItem_removeItem_self]
  · show (((km.storage.removeItem OWN_PUBLIC_KEY).removeItem
      OWN_PRIVATE_KEY).removeItem PEER_PUBLIC_KEY).getItem OWN_PUBLIC_KEY = none
    rw [Storage.getItem_removeItem_ne _ _ _ (by decide),
      Storage.getItem_removeItem_ne _ _ _ (by decide),
      Storage.getItem_removeItem_self]

lemma KeyManager.load_preserves_noPeer (km : KeyManager) (h : km.noPeer) :
    (km.loadKeysIfNeeded).noPeer := by
  obtain ⟨h1, h2, h3⟩ := h
  have g3 :
      ((((km.loadOwnPrivateIfNeeded).loadOwnPublicIfNeeded).generateIfIncomplete)).storage.getItem
        PEER_PUBLIC_KEY = none := by
    rw [KeyManager.s3_storage_getItem_ne _ _ (by decide) (by decide)]
    simpa using h3
  have p3 :
      ((((km.loadOwnPrivateIfNeeded).loadOwnPublicIfNeeded).generateIfIncomplete)).peerPublicKey
        = none := by simp [h1]
  have s3 :
      ((((km.loadOwnPrivateIfNeeded).loadOwnPublicIfNeeded).generateIfIncomplete)).sharedSecret
        = none := by simp [h2]
  have p4 :
      (((((km.loadOwnPrivateIfNeeded).loadOwnPublicIfNeeded).generateIfIncomplete)).loadPeerIfNeeded).peerPublicKey
        = none := by
    rw [KeyManager.s4_peerPublicKey, if_pos p3]
    exact g3
  refine ⟨?_, ?_, ?_⟩
  · unfold KeyManager.loadKeysIfNeeded
    rw [KeyManager.s5_peerPublicKey]
    exact p4
  · unfold KeyManager.loadKeysIfNeeded
    rw [KeyManager.s5_secret_of_no_peer _ p4, KeyManager.s4_sharedSecret]
    exact s3
  · unfold KeyManager.loadKeysIfNeeded
    rw [KeyManager.s5_storage, KeyManager.s4_storage]
    exact g3

lemma KeyManager.runOps_reads_noPeer (reads : List KMOp) :
    ∀ (km : KeyManager), reads.all KMOp.isRead = true → km.noPeer →
      (runOps reads km).noPeer := by
  induction reads with
  | nil => intro km _ h; exact h
  | cons o t ih =>
    intro km hall h
    rw [List.all_cons, Bool.and_eq_true] at hall
    have hstep : (KMOp.apply o km).noPeer := by
      cases o with
      | getOwnPublicKey => exact KeyManager.load_preserves_noPeer km h
      | getSharedSecret => exact KeyManager.load_preserves_noPeer km h
      | setPeerPublicKey k => cases hall.1
      | clear => cases hall.1
    exact ih _ hall.2 hstep

/-- C8: after `clear()`, `getOwnPublicKey()` returns the freshly generated
public key `Key.gen km.nextGen true`, which is distinct from every key
generated earlier (all of which carry an index below the counter), and
`getSharedSecret()` returns the absent marker — and keeps doing so across
any further sequence of read accesses, until `setPeerPublicKey` is called
again. -/
theorem C8_clear_fresh_identity_and_absent_secret (km : KeyManager)
    (reads : List KMOp) (hreads : reads.all KMOp.isRead = true) :
    ((km.clear.getOwnPublicKey).2 = some (Key.gen km.nextGen true)) ∧
      (∀ i b, i < km.nextGen → Key.gen km.nextGen true ≠ Key.gen i b) ∧
      ((km.clear.getSharedSecret).2 = none) ∧
      ((runOps reads km.clear).sharedSecret = none) ∧
      (((runOps reads km.clear).getSharedSecret).2 = none) := by
  have hmk : km.clear = KeyManager.mk0 km.clear.storage km.nextGen := rfl
  have hgen := KeyManager.load_mk0_generates km.clear.storage km.nextGen
    (Or.inl (KeyManager.clear_getItem_own km).1)
  have hres := KeyManager.runOps_reads_noPeer reads km.clear hreads
    (KeyManager.clear_noPeer km)
  refine ⟨?_, ?_, ?_, hres.2.1, ?_⟩
  · show (km.clear.loadKeysIfNeeded).ownPublicKey = _
    rw [hmk]
    exact hgen.2.1
  · intro i b hi hc
    cases hc
    omega
  · show (km.clear.loadKeysIfNeeded).sharedSecret = none
    exact (KeyManager.load_preserves_noPeer km.clear
      (KeyManager.clear_noPeer km)).2.1
  · show ((runOps reads km.clear).loadKeysIfNeeded).sharedSecret = none
    exact (KeyManager.load_preserves_noPeer _ hres).2.1

/-! ## Shared-secret invariant lemmas (C6) -/

/-- One direction of the cache invariant, stable at every intermediate
state: a cached secret implies all three inputs are in memory. -/
def KeyManager.secretImplies (km : KeyManager) : Prop :=
  km.sharedSecret.isSome →
    (km.ownPrivateKey.isSome ∧ km.ownPublicKey.isSome ∧
      km.peerPublicKey.isSome)

/-- The full cache invariant, holding after every completed public
operation. -/
def KeyManager.secretIff (km : KeyManager) : Prop :=
  km.sharedSecret.isSome ↔
    (km.ownPrivateKey.isSome ∧ km.ownPublicKey.isSome ∧
      km.peerPublicKey.isSome)

/-- The in-memory secret, when present, is an output of the derivation
primitive. -/
def KeyManager.secretDerived (km : KeyManager) : Prop :=
  ∀ s, km.sharedSecret = some s → s.isDerived = true

lemma KeyManager.load_secretIff (km : KeyManager) (h : km.secretImplies) :
    (km.loadKeysIfNeeded).secretIff := by
  rcases hs : km.sharedSecret with _ | s
  · have h4s :
        ((((km.loadOwnPrivateIfNeeded).loadOwnPublicIfNeeded).generateIfIncomplete).loadPeerIfNeeded).sharedSecret
          = none := by simp [hs]
    rcases hp4 : ((((km.loadOwnPrivateIfNeeded).loadOwnPublicIfNeeded).generateIfIncomplete).loadPeerIfNeeded).peerPublicKey
      with _ | k
    · have hsec : (km.loadKeysIfNeeded).sharedSecret = none := by
        unfold KeyManager.loadKeysIfNeeded
        rw [KeyManager.s5_secret_of_no_peer _ hp4]
        exact h4s
      have hpeer : (km.loadKeysIfNeeded).peerPublicKey = none := by
        unfold KeyManager.loadKeysIfNeeded
        rw [KeyManager.s5_peerPublicKey]
        exact hp4
      unfold KeyManager.secretIff
      rw [hsec, hpeer]
      simp
    · obtain ⟨p, hp⟩ : ∃ p,
          ((((km.loadOwnPrivateIfNeeded).loadOwnPublicIfNeeded).generateIfIncomplete).loadPeerIfNeeded).ownPrivateKey
            = some p := by
        have := ((km.loadOwnPrivateIfNeeded).loadOwnPublicIfNeeded).s3_own_isSome.1
        rw [KeyManager.s4_ownPrivateKey]
        exact Option.isSome_iff_exists.mp this
      have hsec : (km.loadKeysIfNeeded).sharedSecret =
          some (deriveSharedSecret p k) := by
        unfold KeyManager.loadKeysIfNeeded
        exact KeyManager.s5_secret_of_some_some _ p k h4s hp hp4
      have hpeer : (km.loadKeysIfNeeded).peerPublicKey = some k := by
        unfold KeyManager.loadKeysIfNeeded
        rw [KeyManager.s5_peerPublicKey]
        exact hp4
      have hown := km.load_own_isSome
      unfold KeyManager.secretIff
      rw [hsec, hpeer]
      simp only [Option.isSome_some, true_iff, iff_true]
      exact ⟨hown.1, hown.2, trivial⟩
  · obtain ⟨h1, h2, h3⟩ := h (by rw [hs]; rfl)
    obtain ⟨p, hp⟩ := Option.isSome_iff_exists.mp h1
    obtain ⟨q, hq⟩ := Option.isSome_iff_exists.mp h2
    obtain ⟨k, hk⟩ := Option.isSome_iff_exists.mp h3
    rw [KeyManager.load_id_of_full km p q k s hp hq hk hs]
    unfold KeyManager.secretIff
    rw [hs, hp, hq, hk]
    simp

lemma KeyManager.secretIff_implies (km : KeyManager) (h : km.secretIff) :
    km.secretImplies := fun hs => h.mp hs

lemma KeyManager.load_secret_cases (km : KeyManager) :
    (km.loadKeysIfNeeded).sharedSecret = km.sharedSecret ∨
      ∃ p k, (km.loadKeysIfNeeded).sharedSecret =
        some (Key.derived p k) := by
  unfold KeyManager.loadKeysIfNeeded KeyManager.deriveSecretIfNeeded
  split
  · split
    · exact Or.inr ⟨_, _, rfl⟩
    · exact Or.inl (by simp)
  · rename_i hs
    left
    show ((((km.loadOwnPrivateIfNeeded).loadOwnPublicIfNeeded).generateIfIncomplete).loadPeerIfNeeded).sharedSecret
      = km.sharedSecret
    simp

lemma KeyManager.load_secretDerived (km : KeyManager)
    (h : km.secretDerived) : (km.loadKeysIfNeeded).secretDerived := by
  intro s hs
  rcases km.load_secret_cases with hc | ⟨p, k, hc⟩
  · exact h s (hc ▸ hs)
  · rw [hc] at hs
    cases hs
    rfl

lemma Storage.setItem_noDerived (s : Storage) (k : String) (v : Key)
    (hs : s.noDerived) (hv : v.isDerived = false) :
    (s.setItem k v).noDerived := by
  intro p hp
  rcases List.mem_cons.mp hp with rfl | hp2
  · exact hv
  · exact hs p (List.mem_of_mem_filter hp2)

lemma Storage.removeItem_noDerived (s : Storage) (k : String)
    (hs : s.noDerived) : (s.removeItem k).noDerived := fun p hp =>
  hs p (List.mem_of_mem_filter hp)

lemma KeyManager.load_storage_cases (km : KeyManager) :
    (km.loadKeysIfNeeded).storage = km.storage ∨
      (km.loadKeysIfNeeded).storage =
        (km.storage.setItem OWN_PRIVATE_KEY
          (Key.gen km.nextGen false)).setItem OWN_PUBLIC_KEY
          (Key.gen km.nextGen true) := by
  have hframe : (km.loadKeysIfNeeded).storage =
      (((km.loadOwnPrivateIfNeeded).loadOwnPublicIfNeeded).generateIfIncomplete).storage := by
    unfold KeyManager.loadKeysIfNeeded
    rw [KeyManager.s5_storage, KeyManager.s4_storage]
  rw [hframe]
  unfold KeyManager.generateIfIncomplete
  split
  · right
    rw [KeyManager.generateKeyPair_eq]
    simp
  · left
    simp

lemma KeyManager.load_noDerived (km : KeyManager)
    (h : km.storage.noDerived) : (km.loadKeysIfNeeded).storage.noDerived := by
  rcases km.load_storage_cases with hc | hc <;> rw [hc]
  · exact h
  · exact Storage.setItem_noDerived _ _ _
      (Storage.setItem_noDerived _ _ _ h rfl) rfl

/-- The inductive invariant carried across public operations: the
one-directional cache implication, the derived shape of any cached secret,
and a storage free of derivation outputs. -/
def KeyManager.good (km : KeyManager) : Prop :=
  km.secretImplies ∧ km.secretDerived ∧ km.storage.noDerived

lemma KeyManager.clear_fields (km : KeyManager) :
    km.clear.ownPrivateKey = none ∧ km.clear.ownPublicKey = none ∧
      km.clear.peerPublicKey = none ∧ km.clear.sharedSecret = none :=
  ⟨rfl, rfl, rfl, rfl⟩

lemma KMOp.apply_good (op : KMOp) (km : KeyManager)
    (hok : op.peerOk = true) (h : km.good) :
    (op.apply km).good ∧ (op.apply km).secretIff := by
  obtain ⟨hInv, hSD, hND⟩ := h
  cases op with
  | getOwnPublicKey =>
    have hiff := km.load_secretIff hInv
    exact ⟨⟨KeyManager.secretIff_implies _ hiff, km.load_secretDerived hSD,
      km.load_noDerived hND⟩, hiff⟩
  | getSharedSecret =>
    have hiff := km.load_secretIff hInv
    exact ⟨⟨KeyManager.secretIff_implies _ hiff, km.load_secretDerived hSD,
      km.load_noDerived hND⟩, hiff⟩
  | setPeerPublicKey k =>
    have hk : k.isDerived = false := by
      simpa [KMOp.peerOk] using hok
    have hInv1 : (({ km with sharedSecret := none, peerPublicKey := some k
        : KeyManager }).storeKey PEER_PUBLIC_KEY k).secretImplies := by
      intro hs2
      exact absurd hs2 (by simp [KeyManager.storeKey])
    have hSD1 : (({ km with sharedSecret := none, peerPublicKey := some k
        : KeyManager }).storeKey PEER_PUBLIC_KEY k).secretDerived := by
      intro s2 hs2
      exact absurd hs2 (by simp [KeyManager.storeKey])
    have hND1 : (({ km with sharedSecret := none, peerPublicKey := some k
        : KeyManager }).storeKey PEER_PUBLIC_KEY k).storage.noDerived :=
      Storage.setItem_noDerived _ _ _ hND hk
    have hiff := KeyManager.load_secretIff _ hInv1
    exact ⟨⟨KeyManager.secretIff_implies _ hiff,
      KeyManager.load_secretDerived _ hSD1,
      KeyManager.load_noDerived _ hND1⟩, hiff⟩
  | clear =>
    have e : KMOp.apply KMOp.clear km = km.clear := rfl
    refine ⟨⟨?_, ?_, ?_⟩, ?_⟩ <;> rw [e]
    · intro hs2
      exact absurd hs2 (by rw [(km.clear_fields).2.2.2]; simp)
    · intro s2 hs2
      exact absurd hs2 (by rw [(km.clear_fields).2.2.2]; simp)
    · exact Storage.removeItem_noDerived _ _
        (Storage.removeItem_noDerived _ _
          (Storage.removeItem_noDerived _ _ hND))
    · unfold KeyManager.secretIff
      rw [(km.clear_fields).1, (km.clear_fields).2.2.2]
      simp

lemma runOps_good (ops : List KMOp) :
    ∀ km : KeyManager, ops.all KMOp.peerOk = true → km.good →
      (runOps ops km).good := by
  induction ops with
  | nil => intro km _ h; exact h
  | cons o t ih =>
    intro km hall h
    rw [List.all_cons, Bool.and_eq_true] at hall
    exact ih _ hall.2 (KMOp.apply_good o km hall.1 h).1

/-- C6: after any completed public `KeyManager` operation from a fresh
instance, the in-memory shared secret is present exactly when the own
keypair and the peer public key are all present, and the shared secret
value is never among the values persisted in storage (given that the
initial storage and all supplied peer keys are not derivation outputs). -/
theorem C6_secret_iff_inputs_and_never_persisted (s : Storage) (n : Nat)
    (ops : List KMOp) (op : KMOp) (hs : s.noDerived)
    (hops : (ops ++ [op]).all KMOp.peerOk = true) :
    (KMOp.apply op (runOps ops (KeyManager.mk0 s n))).secretIff ∧
      ∀ sec, (KMOp.apply op (runOps ops (KeyManager.mk0 s n))).sharedSecret
          = some sec →
        ∀ pr ∈ (KMOp.apply op (runOps ops (KeyManager.mk0 s n))).storage,
          pr.2 ≠ sec := by
  rw [List.all_append, Bool.and_eq_true] at hops
  have hop : op.peerOk = true := by
    have := hops.2
    rw [List.all_cons] at this
    simpa using this
  have h0 : (KeyManager.mk0 s n).good := by
    refine ⟨?_, ?_, hs⟩
    · intro hs2
      exact absurd hs2 (by simp [KeyManager.mk0])
    · intro s2 hs2
      exact absurd hs2 (by simp [KeyManager.mk0])
  obtain ⟨⟨_, hSD, hND⟩, hiff⟩ :=
    KMOp.apply_good op _ hop (runOps_good ops _ hops.1 h0)
  refine ⟨hiff, ?_⟩
  intro sec hsec pr hpr hc
  have h1 : sec.isDerived = true := hSD sec hsec
  have h2 : pr.2.isDerived = false := hND pr hpr
  rw [hc, h1] at h2
  cases h2

/-! ## Best-effort clear lemmas (C9) -/

lemma Storage.removeItem_getItem_none (s : Storage) (k k2 : String)
    (h : s.getItem k = none) : (s.removeItem k2).getItem k = none := by
  by_cases hk : k = k2
  · subst hk
    exact s.getItem_removeItem_self k
  · rw [Storage.getItem_removeItem_ne _ _ _ hk]
    exact h

lemma attempt_getItem_none (fails : String → Bool) (t : Storage)
    (k k2 : String) (h : t.getItem k = none) :
    (if fails k2 then t else t.removeItem k2).getItem k = none := by
  split
  · exact h
  · exact Storage.removeItem_getItem_none t k k2 h

lemma attempt_getItem_self (fails : String → Bool) (t : Storage)
    (k : String) (h : fails k = false) :
    (if fails k then t else t.removeItem k).getItem k = none := by
  rw [if_neg (by simp [h])]
  exact Storage.getItem_removeItem_self t k

/-- C9: `clear()` attempts all three durable deletions on every call
(`Promise.all` creates the three removal promises up front), so whichever
other removals fail, every removal that does not itself fail takes effect:
its entry is gone afterwards.  With no failures the result coincides with
the storage left by `clear()`. -/
theorem C9_clear_attempts_every_removal (fails : String → Bool)
    (s : Storage) (k : String) (hk : k ∈ clearRemovalAttempts)
    (hnf : fails k = false) :
    (clearStorageWith fails s).getItem k = none ∧
      clearStorageWith (fun _ => false) s =
        ((s.removeItem OWN_PUBLIC_KEY).removeItem
          OWN_PRIVATE_KEY).removeItem PEER_PUBLIC_KEY := by
  refine ⟨?_, rfl⟩
  simp only [clearStorageWith]
  have hcase : k = OWN_PUBLIC_KEY ∨ k = OWN_PRIVATE_KEY ∨
      k = PEER_PUBLIC_KEY := by
    simpa [clearRemovalAttempts] using hk
  rcases hcase with rfl | rfl | rfl
  · exact attempt_getItem_none fails _ _ _
      (attempt_getItem_none fails _ _ _
        (attempt_getItem_self fails s _ hnf))
  · exact attempt_getItem_none fails _ _ _
      (attempt_getItem_self fails _ _ hnf)
  · exact attempt_getItem_self fails _ _ hnf

/-! ## Round-trip coordinator lemmas -/

/-- Both listeners removed, timer cleared, embedded browser not open. -/
def Attempt.tornDown (st : Attempt R) : Prop :=
  st.listenerActive = false ∧ st.browserListenerActive = false ∧
    st.timerActive = false ∧ st.browserOpen = false

/-- Reachability invariant: a settled attempt has been fully torn down. -/
def Attempt.resolvedTornDown (st : Attempt R) : Prop :=
  st.resolution.isSome → st.tornDown

/-- Reachability invariant: every rejection carries the normalized
user-rejected error. -/
def Attempt.rejectionsNormalized (st : Attempt R) : Prop :=
  ∀ e, st.resolution = some (Outcome.rejected e) → e = RTError.userRejected

lemma foldl_preserve {σ α : Type _} (f : σ → α → σ) (P : σ → Prop)
    (hstep : ∀ st e, P st → P (f st e)) :
    ∀ (l : List α) (st : σ), P st → P (List.foldl f st l) := by
  intro l
  induction l with
  | nil => intro st h; exact h
  | cons a t ih => intro st h; exact ih (f st a) (hstep st a h)

lemma launch_resolvedTornDown (R : Type) (lf : Bool) :
    (launch R lf).resolvedTornDown := by
  cases lf <;>
    simp [launch, Attempt.resolvedTornDown, Attempt.tornDown,
      Attempt.teardown, Attempt.settle]

lemma launch_rejectionsNormalized (R : Type) (lf : Bool) :
    (launch R lf).rejectionsNormalized := by
  cases lf <;>
    simp [launch, Attempt.rejectionsNormalized, Attempt.teardown,
      Attempt.settle]

lemma step_resolvedTornDown (scheme : String) (decode : String → Option R)
    (st : Attempt R) (e : RTEvent) (h : st.resolvedTornDown) :
    (step scheme decode st e).resolvedTornDown := by
  obtain ⟨l, bl, t, bo, r⟩ := st
  cases e with
  | appUrlOpen url =>
    cases l <;> cases hsw : urlStartsWith url scheme <;>
      rcases hd : decode url with _ | resp <;>
      rcases r with _ | o <;>
      simp_all [step, Attempt.teardown, Attempt.settle,
        Attempt.resolvedTornDown, Attempt.tornDown]
  | browserClosed =>
    cases bl <;> rcases r with _ | o <;>
      simp_all [step, Attempt.teardown, Attempt.settle,
        Attempt.resolvedTornDown, Attempt.tornDown]
  | timerFired =>
    cases t <;> rcases r with _ | o <;>
      simp_all [step, Attempt.teardown, Attempt.settle,
        Attempt.resolvedTornDown, Attempt.tornDown]

lemma step_rejectionsNormalized (scheme : String)
    (decode : String → Option R) (st : Attempt R) (e : RTEvent)
    (h : st.rejectionsNormalized) :
    (step scheme decode st e).rejectionsNormalized := by
  obtain ⟨l, bl, t, bo, r⟩ := st
  cases e with
  | appUrlOpen url =>
    cases l <;> cases hsw : urlStartsWith url scheme <;>
      rcases hd : decode url with _ | resp <;>
      rcases r with _ | o <;>
      simp_all [step, Attempt.teardown, Attempt.settle,
        Attempt.rejectionsNormalized] <;> exact h
  | browserClosed =>
    cases bl <;> rcases r with _ | o <;>
      simp_all [step, Attempt.teardown, Attempt.settle,
        Attempt.rejectionsNormalized] <;> exact h
  | timerFired =>
    cases t <;> rcases r with _ | o <;>
      simp_all [step, Attempt.teardown, Attempt.settle,
        Attempt.rejectionsNormalized] <;> exact h

lemma step_resolved_eq (scheme : String) (decode : String → Option R)
    (st : Attempt R) (e : RTEvent) (o : Outcome R)
    (h : st.resolvedTornDown) (hr : st.resolution = some o) :
    step scheme decode st e = st := by
  obtain ⟨l, bl, t, bo, r⟩ := st
  obtain ⟨hl, hbl, ht, hbo⟩ := h (by simp_all)
  simp only at hl hbl ht hbo
  subst hl hbl ht hbo
  cases e with
  | appUrlOpen url => simp [step]
  | browserClosed => simp [step]
  | timerFired => simp [step]

lemma runEvents_resolvedTornDown (scheme : String)
    (decode : String → Option R) (lf : Bool) (events : List RTEvent) :
    (runEvents scheme decode lf events).resolvedTornDown :=
  foldl_preserve _ _ (fun st e h => step_resolvedTornDown scheme decode st e h)
    events _ (launch_resolvedTornDown R lf)

lemma runEvents_rejectionsNormalized (scheme : String)
    (decode : String → Option R) (lf : Bool) (events : List RTEvent) :
    (runEvents scheme decode lf events).rejectionsNormalized :=
  foldl_preserve _ _
    (fun st e h => step_rejectionsNormalized scheme decode st e h)
    events _ (launch_rejectionsNormalized R lf)

lemma foldl_steps_resolved (scheme : String) (decode : String → Option R)
    (st : Attempt R) (o : Outcome R) (hInv : st.resolvedTornDown)
    (hr : st.resolution = some o) :
    ∀ l, List.foldl (step scheme decode) st l = st := by
  intro l
  induction l with
  | nil => rfl
  | cons a t ih =>
    rw [List.foldl_cons, step_resolved_eq scheme decode st a o hInv hr]
    exact ih

/-- C3: every failure path of the web-wallet round trip — timeout, browser
dismissed, failure of the open-browser instruction, and a matching return
URL whose decoding throws — rejects with the single normalized
user-rejected error: any rejected resolution of any run carries
`RTError.userRejected`, and each of the four failure paths does produce a
rejected resolution. -/
theorem C3_failures_normalize_to_user_rejected (R : Type) (scheme : String)
    (decode : String → Option R) :
    (∀ lf events e,
        (runEvents scheme decode lf events).resolution =
          some (Outcome.rejected e) → e = RTError.userRejected) ∧
      (launch R true).resolution =
        some (Outcome.rejected RTError.userRejected) ∧
      (runEvents scheme decode false [RTEvent.browserClosed]).resolution =
        some (Outcome.rejected RTError.userRejected) ∧
      (runEvents scheme decode false [RTEvent.timerFired]).resolution =
        some (Outcome.rejected RTError.userRejected) ∧
      (∀ u, urlStartsWith u scheme = true → decode u = none →
        (runEvents scheme decode false [RTEvent.appUrlOpen u]).resolution =
          some (Outcome.rejected RTError.userRejected)) := by
  refine ⟨?_, rfl, ?_, ?_, ?_⟩
  · intro lf events e he
    exact runEvents_rejectionsNormalized scheme decode lf events e he
  · simp [runEvents, launch, step, Attempt.teardown, Attempt.settle]
  · simp [runEvents, launch, step, Attempt.teardown, Attempt.settle]
  · intro u hu hd
    simp [runEvents, launch, step, hu, hd, Attempt.teardown, Attempt.settle]

/-- C4: exactly one resolution per round trip — the teardown block is
idempotent, a resolved run is a fixpoint of further event delivery (no
listener fires after resolution, so the resolution value is stable under
any suffix of events), and from a pending fully-armed state whichever of
the three race branches fires first settles the promise and removes both
listeners and clears the timer. -/
theorem C4_exactly_one_resolution (R : Type) (scheme : String)
    (decode : String → Option R) :
    (∀ st : Attempt R, st.teardown.teardown = st.teardown) ∧
      (∀ lf events e o,
        (runEvents scheme decode lf events).resolution = some o →
          step scheme decode (runEvents scheme decode lf events) e =
            runEvents scheme decode lf events) ∧
      (∀ lf events events2 o,
        (runEvents scheme decode lf events).resolution = some o →
          (runEvents scheme decode lf (events ++ events2)).resolution =
            some o) ∧
      (∀ st : Attempt R, st.resolution = none → st.listenerActive = true →
        st.browserListenerActive = true → st.timerActive = true →
        ∀ e, isTrigger scheme e = true →
          (step scheme decode st e).resolution.isSome = true ∧
            (step scheme decode st e).listenerActive = false ∧
            (step scheme decode st e).browserListenerActive = false ∧
            (step scheme decode st e).timerActive = false) := by
  refine ⟨?_, ?_, ?_, ?_⟩
  · intro st; rfl
  · intro lf events e o ho
    exact step_resolved_eq scheme decode _ e o
      (runEvents_resolvedTornDown scheme decode lf events) ho
  · intro lf events events2 o ho
    have : runEvents scheme decode lf (events ++ events2) =
        runEvents scheme decode lf events := by
      unfold runEvents
      rw [List.foldl_append]
      exact foldl_steps_resolved scheme decode _ o
        (runEvents_resolvedTornDown scheme decode lf events) ho events2
    rw [this]
    exact ho
  · intro st hr hl hbl ht e htrig
    obtain ⟨l, bl, t, bo, r⟩ := st
    simp only at hr hl hbl ht
    subst hr hl hbl ht
    cases e with
    | appUrlOpen url =>
      have hu : urlStartsWith url scheme = true := by
        simpa [isTrigger] using htrig
      rcases hd : decode url with _ | resp <;>
        simp [step, hu, hd, Attempt.teardown, Attempt.settle]
    | browserClosed =>
      simp [step, Attempt.teardown, Attempt.settle]
    | timerFired =>
      simp [step, Attempt.teardown, Attempt.settle]

/-! Lemmas for the timeout path (C7). -/

lemma step_nontrigger (scheme : String) (decode : String → Option R)
    (st : Attempt R) (e : RTEvent) (h : isTrigger scheme e = false) :
    step scheme decode st e = st := by
  cases e with
  | appUrlOpen url =>
    have hu : urlStartsWith url scheme = false := by
      simpa [isTrigger] using h
    obtain ⟨l, bl, t, bo, r⟩ := st
    cases l <;> simp [step, hu]
  | browserClosed => simp [isTrigger] at h
  | timerFired => simp [isTrigger] at h

lemma foldl_nontrigger (scheme : String) (decode : String → Option R)
    (events : List RTEvent)
    (h : events.all (fun e => !isTrigger scheme e) = true) :
    ∀ st : Attempt R, List.foldl (step scheme decode) st events = st := by
  induction events with
  | nil => intro st; rfl
  | cons a t ih =>
    rw [List.all_cons, Bool.and_eq_true] at h
    intro st
    rw [List.foldl_cons, step_nontrigger scheme decode st a
      (by simpa using h.1)]
    exact ih h.2 st

/-- C7: when no matching deep link and no browser dismissal occur, the
armed timer is the fixed constant of 5 minutes (300000 ms — the call has
no duration parameter), and its firing removes both listeners, closes the
embedded browser, and rejects with the normalized user-rejected error. -/
theorem C7_timeout_fixed_and_rejects (R : Type) (scheme : String)
    (decode : String → Option R) (events : List RTEvent)
    (hno : events.all (fun e => !isTrigger scheme e) = true) :
    timeoutMs = 300000 ∧
      (runEvents scheme decode false
          (events ++ [RTEvent.timerFired])).resolution =
        some (Outcome.rejected RTError.userRejected) ∧
      (runEvents scheme decode false
          (events ++ [RTEvent.timerFired])).listenerActive = false ∧
      (runEvents scheme decode false
          (events ++ [RTEvent.timerFired])).browserListenerActive = false ∧
      (runEvents scheme decode false
          (events ++ [RTEvent.timerFired])).browserOpen = false := by
  have hrun : runEvents scheme decode false (events ++ [RTEvent.timerFired])
      = step scheme decode (launch R false) RTEvent.timerFired := by
    unfold runEvents
    rw [List.foldl_append, foldl_nontrigger scheme decode events hno]
    rfl
  rw [hrun]
  refine ⟨rfl, ?_, ?_, ?_, ?_⟩ <;>
    simp [launch, step, Attempt.teardown, Attempt.settle]

/-- C10: a deep-link event whose URL does not start with the expected
return scheme leaves the attempt state entirely unchanged — no listener
removed, timer untouched, browser untouched, promise still pending until a
later matching event, a dismissal, or the timeout. -/
theorem C10_nonmatching_deeplink_is_noop (R : Type) (scheme : String)
    (decode : String → Option R) (st : Attempt R) (u : String)
    (h : urlStartsWith u scheme = false) :
    step scheme decode st (RTEvent.appUrlOpen u) = st := by
  obtain ⟨l, bl, t, bo, r⟩ := st
  cases l <;> simp [step, h]

/-! ## Claim C5: add-chain payload url fields -/

/-- C5 counterexample: with no caller-supplied parameters and a configured
network entry that has neither a default block explorer nor a default RPC
URL, the add-chain payload's `rpcUrls` is the one-element array containing
the empty string (`[chain.rpcUrls.default?.http[0] ?? ""]`), not the empty
array the claim states. -/
theorem C5_counterexample_rpcUrls_not_empty_array :
    addChainRpcUrls none
        ⟨999, "testnet", none, none, "ETH"⟩ = [""] ∧
      addChainRpcUrls none
        ⟨999, "testnet", none, none, "ETH"⟩ ≠ ([] : List String) ∧
      addChainBlockExplorerUrls none
        ⟨999, "testnet", none, none, "ETH"⟩ = ([] : List String) := by
  refine ⟨rfl, ?_, rfl⟩
  intro h
  cases h

/-- C5 (amended): `blockExplorerUrls` prefers a caller-supplied array when
present (the network's default single-url array otherwise, empty when
neither exists or the default url is the empty string), while `rpcUrls`
prefers a caller-supplied array only when non-empty and otherwise falls
back to the one-element array containing the network's first default RPC
URL — `[""]`, not `[]`, when no default exists. -/
theorem C5_amended_addchain_url_fields (p : Option AddChainParams)
    (chain : WagmiChain) :
    (∀ urls, p.bind AddChainParams.blockExplorerUrls = some urls →
        addChainBlockExplorerUrls p chain = urls) ∧
      (p.bind AddChainParams.blockExplorerUrls = none →
        ∀ url, chain.blockExplorerDefaultUrl = some url → url ≠ "" →
          addChainBlockExplorerUrls p chain = [url]) ∧
      (p.bind AddChainParams.blockExplorerUrls = none →
        (chain.blockExplorerDefaultUrl = none ∨
          chain.blockExplorerDefaultUrl = some "") →
          addChainBlockExplorerUrls p chain = []) ∧
      (∀ u us, p.bind AddChainParams.rpcUrls = some (u :: us) →
        addChainRpcUrls p chain = u :: us) ∧
      ((p.bind AddChainParams.rpcUrls = none ∨
          p.bind AddChainParams.rpcUrls = some []) →
        addChainRpcUrls p chain =
          [(chain.rpcDefaultHttp.bind List.head?).getD ""]) ∧
      ((p.bind AddChainParams.rpcUrls = none ∨
          p.bind AddChainParams.rpcUrls = some []) →
        (chain.rpcDefaultHttp = none ∨ chain.rpcDefaultHttp = some []) →
          addChainRpcUrls p chain = [""]) := by
  refine ⟨?_, ?_, ?_, ?_, ?_, ?_⟩
  · intro urls h
    simp [addChainBlockExplorerUrls, h]
  · intro h url hu hne
    simp [addChainBlockExplorerUrls, h, hu, hne]
  · intro h hd
    rcases hd with hd | hd <;> simp [addChainBlockExplorerUrls, h, hd]
  · intro u us h
    simp [addChainRpcUrls, h]
  · intro h
    rcases h with h | h <;> simp [addChainRpcUrls, h]
  · intro h hd
    rcases h with h | h <;> rcases hd with hd | hd <;>
      simp [addChainRpcUrls, h, hd]

/-! ## Concrete witnesses -/

/-- Witness for C2 at a storage holding only an orphaned own-private
half. -/
theorem C2_partial_keypair_regenerated_witness :
    (Storage.getItem [(OWN_PRIVATE_KEY, Key.ext 5)] OWN_PRIVATE_KEY =
        some (Key.ext 5) ∧
      Storage.getItem [(OWN_PRIVATE_KEY, Key.ext 5)] OWN_PUBLIC_KEY =
        none) ∧
      ((KeyManager.mk0 [(OWN_PRIVATE_KEY, Key.ext 5)] 0).getOwnPublicKey).2 =
        some (Key.gen 0 true) :=
  ⟨⟨by decide, by decide⟩,
    (C2_partial_keypair_regenerated [(OWN_PRIVATE_KEY, Key.ext 5)] 0
      (Key.ext 5) (Or.inl ⟨by decide, by decide⟩)).1⟩

/-- Witness for C3 at a matching return URL whose decoding fails. -/
theorem C3_failures_normalize_witness :
    urlStartsWith "app://x" "app://" = true ∧
      (runEvents "app://" (fun _ : String => (none : Option Nat)) false
          [RTEvent.appUrlOpen "app://x"]).resolution =
        some (Outcome.rejected RTError.userRejected) :=
  ⟨by decide,
    (C3_failures_normalize_to_user_rejected Nat "app://"
      (fun _ => none)).2.2.2.2 "app://x" (by decide) rfl⟩

/-- Witness for C4 on the concrete run that resolves via the
browser-dismissed branch. -/
theorem C4_exactly_one_resolution_witness :
    (runEvents "app://" (fun _ : String => (none : Option Nat)) false
        [RTEvent.browserClosed]).resolution =
      some (Outcome.rejected RTError.userRejected) ∧
      step "app://" (fun _ : String => (none : Option Nat))
          (runEvents "app://" (fun _ : String => (none : Option Nat)) false
            [RTEvent.browserClosed]) RTEvent.timerFired =
        runEvents "app://" (fun _ : String => (none : Option Nat)) false
          [RTEvent.browserClosed] ∧
      (runEvents "app://" (fun _ : String => (none : Option Nat)) false
          ([RTEvent.browserClosed] ++ [RTEvent.timerFired])).resolution =
        some (Outcome.rejected RTError.userRejected) ∧
      (step "app://" (fun _ : String => (none : Option Nat))
          (⟨true, true, true, true, none⟩ : Attempt Nat)
          RTEvent.browserClosed).resolution.isSome = true :=
  ⟨rfl,
    (C4_exactly_one_resolution Nat "app://" (fun _ => none)).2.1 false
      [RTEvent.browserClosed] RTEvent.timerFired
      (Outcome.rejected RTError.userRejected) rfl,
    (C4_exactly_one_resolution Nat "app://" (fun _ => none)).2.2.1 false
      [RTEvent.browserClosed] [RTEvent.timerFired]
      (Outcome.rejected RTError.userRejected) rfl,
    ((C4_exactly_one_resolution Nat "app://" (fun _ => none)).2.2.2
      ⟨true, true, true, true, none⟩ rfl rfl rfl rfl
      RTEvent.browserClosed rfl).1⟩

/-- Witness for the amended C5 at caller-supplied arrays. -/
theorem C5_amended_addchain_witness :
    addChainBlockExplorerUrls
        (some ⟨some ["be"], some ["r1"], none, none, none⟩)
        ⟨1, "main", some "bx", some ["rpc"], "ETH"⟩ = ["be"] ∧
      addChainRpcUrls (some ⟨some ["be"], some ["r1"], none, none, none⟩)
        ⟨1, "main", some "bx", some ["rpc"], "ETH"⟩ = ["r1"] :=
  ⟨(C5_amended_addchain_url_fields
      (some ⟨some ["be"], some ["r1"], none, none, none⟩)
      ⟨1, "main", some "bx", some ["rpc"], "ETH"⟩).1 ["be"] rfl,
    (C5_amended_addchain_url_fields
      (some ⟨some ["be"], some ["r1"], none, none, none⟩)
      ⟨1, "main", some "bx", some ["rpc"], "ETH"⟩).2.2.2.1 "r1" [] rfl⟩

/-- Witness for C6 after a read followed by a peer-key installation. -/
theorem C6_secret_iff_witness :
    Storage.noDerived [] ∧
      (([KMOp.getOwnPublicKey] ++
        [KMOp.setPeerPublicKey (Key.ext 0)]).all KMOp.peerOk = true) ∧
      (KMOp.apply (KMOp.setPeerPublicKey (Key.ext 0))
        (runOps [KMOp.getOwnPublicKey] (KeyManager.mk0 [] 0))).secretIff :=
  ⟨by decide, by decide,
    (C6_secret_iff_inputs_and_never_persisted [] 0 [KMOp.getOwnPublicKey]
      (KMOp.setPeerPublicKey (Key.ext 0)) (by decide) (by decide)).1⟩

/-- Witness for C7 with one non-matching deep link before the timer
fires. -/
theorem C7_timeout_witness :
    (([RTEvent.appUrlOpen "zzz"] : List RTEvent).all
        (fun e => !isTrigger "app://" e) = true) ∧
      (runEvents "app://" (fun _ : String => (none : Option Nat)) false
          ([RTEvent.appUrlOpen "zzz"] ++ [RTEvent.timerFired])).resolution =
        some (Outcome.rejected RTError.userRejected) :=
  ⟨by decide,
    (C7_timeout_fixed_and_rejects Nat "app://" (fun _ => none)
      [RTEvent.appUrlOpen "zzz"] (by decide)).2.1⟩

/-- Witness for C8 with one read access after clearing. -/
theorem C8_clear_fresh_identity_witness :
    (([KMOp.getOwnPublicKey] : List KMOp).all KMOp.isRead = true) ∧
      (((KeyManager.mk0 [] 0).clear.getOwnPublicKey).2 =
        some (Key.gen 0 true)) :=
  ⟨by decide,
    (C8_clear_fresh_identity_and_absent_secret (KeyManager.mk0 [] 0)
      [KMOp.getOwnPublicKey] (by decide)).1⟩

/-- Witness for C9 where the own-private removal fails but the own-public
removal still takes effect. -/
theorem C9_clear_attempts_witness :
    OWN_PUBLIC_KEY ∈ clearRemovalAttempts ∧
      ((fun key => key == OWN_PRIVATE_KEY) OWN_PUBLIC_KEY = false) ∧
      (clearStorageWith (fun key => key == OWN_PRIVATE_KEY)
        [(OWN_PUBLIC_KEY, Key.ext 1)]).getItem OWN_PUBLIC_KEY = none :=
  ⟨by decide, by decide,
    (C9_clear_attempts_every_removal (fun key => key == OWN_PRIVATE_KEY)
      [(OWN_PUBLIC_KEY, Key.ext 1)] OWN_PUBLIC_KEY (by decide)
      (by decide)).1⟩

/-- Witness for C10 at a non-matching URL against a fully-armed pending
attempt. -/
theorem C10_nonmatching_witness :
    urlStartsWith "zzz" "app://" = false ∧
      step "app://" (fun _ : String => (none : Option Nat))
          (⟨true, true, true, true, none⟩ : Attempt Nat)
          (RTEvent.appUrlOpen "zzz") =
        (⟨true, true, true, true, none⟩ : Attempt Nat) :=
  ⟨by decide,
    C10_nonmatching_deeplink_is_noop Nat "app://" (fun _ => none)
      ⟨true, true, true, true, none⟩ "zzz" (by decide)⟩
